import Mathlib

/-!
Verification development for the AI-flashcards application
(`src/app/components/flashcards.tsx`).

Strings of the source are embedded as `List Char`; the regular
expressions of the source are embedded as executable functions on
character lists whose semantics follows the JavaScript regex engine
(anchored literal matching for the subject-name pattern, and an explicit
backtracking search for the `Q:/A:` parsing pattern).  Numbers are
embedded as `Nat`/`Int` (idealised integers).  The browser `localStorage`
store is embedded as an explicit field of the application state, and the
React state cells of the component are the fields of `Session`.
-/

namespace Flashcards


/-- Source strings (`string` of TypeScript) are lists of characters. -/
abbrev Str := List Char

/-- `Flashcard` of the source: `{ question: string; answer: string }`. -/
structure Flashcard where
  question : Str
  answer : Str
deriving DecidableEq

/-- `StoredSet` of the source: `{ subject: string; flashcards: Flashcard[] }`. -/
structure StoredSet where
  subject : Str
  flashcards : List Flashcard
deriving DecidableEq

/-! ### Decimal digits

The source interpolates `maxIndex + 1` into a template string
(JavaScript decimal printing) and reads suffixes back with
`parseInt(match[1], 10)`.  `natDigits` is decimal printing of a natural
number and `digitsVal` is the value of a digit string. -/

/-- Value of one decimal digit character. -/
def digitVal (c : Char) : Nat := c.toNat - 48

/-- Value of a decimal digit string, most significant digit first
(the semantics of `parseInt(ds, 10)` on an all-digit string). -/
def digitsVal (ds : Str) : Nat := ds.foldl (fun a c => a * 10 + digitVal c) 0

/-- Least-significant-first list of decimal digits of `n`, with explicit
fuel so the definition is structural and evaluates in the kernel. -/
def toDigitsRev : Nat → Nat → List Nat
  | 0, _ => []
  | f + 1, n => if n = 0 then [] else n % 10 :: toDigitsRev f (n / 10)

/-- Decimal printing of a natural number (the semantics of JavaScript
template interpolation of a non-negative integer). -/
def natDigits (n : Nat) : Str :=
  if n = 0 then ['0']
  else ((toDigitsRev n n).reverse).map (fun d => Char.ofNat (48 + d))

/-! ### Subject-name deduplication (`getUniqueSubjectName`)

The source builds the regex `^${escapeRegExp(base)}(?:\((\d+)\))?$` and
matches every stored subject against it.  Because `base` is escaped, the
regex denotes: the subject is exactly `base`, or exactly
`base ++ "(" ++ ds ++ ")"` for a non-empty digit string `ds` (whose value
is read with `parseInt`).  `subjectMatch` is that denotation:
`none` = no match, `some none` = exact match without suffix,
`some (some k)` = match with numeric suffix of value `k`. -/

/-- Denotation of matching one subject against
`^escapeRegExp(base)(?:\((\d+)\))?$`. -/
def subjectMatch (base subject : Str) : Option (Option Nat) :=
  if base.isPrefixOf subject then
    match subject.drop base.length with
    | [] => some none
    | c :: t =>
      if c = '(' ∧ t.getLast? = some ')' ∧ ¬t.dropLast.isEmpty ∧
          t.dropLast.all Char.isDigit = true
      then some (some (digitsVal t.dropLast))
      else none
  else none

/-- The `sets.forEach` loop body of `getUniqueSubjectName`: the
accumulator is the pair of the mutable variables `(foundBase, maxIndex)`. -/
def scanStep (base : Str) (acc : Bool × Int) (set : StoredSet) : Bool × Int :=
  match subjectMatch base set.subject with
  | some (some idx) => (acc.1, if (idx : Int) > acc.2 then (idx : Int) else acc.2)
  | some none => (true, acc.2)
  | none => acc

/-- The whole `forEach` scan of `getUniqueSubjectName`, starting from
`foundBase = false`, `maxIndex = -1`. -/
def scanSets (base : Str) (sets : List StoredSet) : Bool × Int :=
  sets.foldl (scanStep base) (false, -1)

/-- `getUniqueSubjectName` of the source: if no exact (unsuffixed) match
was found the base is returned unchanged, otherwise `base(maxIndex+1)`. -/
def getUniqueSubjectName (base : Str) (sets : List StoredSet) : Str :=
  if (scanSets base sets).1 then
    base ++ ('(' :: natDigits ((scanSets base sets).2 + 1).toNat ++ [')'])
  else base

/-- `addStoredSet` of the source, with the `localStorage` round trip made
explicit: it receives the current list of sets and returns the chosen
unique subject together with the new list (the new set is `unshift`ed). -/
def addStoredSet (subject : Str) (flashcards : List Flashcard) (sets : List StoredSet) :
    Str × List StoredSet :=
  let uniqueSubject := getUniqueSubjectName subject sets
  (uniqueSubject, ⟨uniqueSubject, flashcards⟩ :: sets)

/-- Whether a stored set matches the base exactly (no numeric suffix). -/
def isExactHit (base : Str) (set : StoredSet) : Bool :=
  match subjectMatch base set.subject with
  | some none => true
  | _ => false

/-- Folding any sequence of `add` calls from the empty store. -/
def runAdds (ops : List (Str × List Flashcard)) : List StoredSet :=
  ops.foldl (fun sets op => (addStoredSet op.1 op.2 sets).2) []

/-! ### Whitespace, trimming and token counting

`isJsWs` is the character class `\s` of JavaScript regular expressions,
which coincides with the set removed by `String.prototype.trim`. -/

/-- The JavaScript `\s` character class. -/
def isJsWs (c : Char) : Bool :=
  c = ' ' || c = '\t' || c = '\n' || c = '\r' ||
  c.toNat = 11 || c.toNat = 12 || c.toNat = 0xa0 || c.toNat = 0x1680 ||
  (0x2000 ≤ c.toNat && c.toNat ≤ 0x200a) || c.toNat = 0x2028 || c.toNat = 0x2029 ||
  c.toNat = 0x202f || c.toNat = 0x205f || c.toNat = 0x3000 || c.toNat = 0xfeff

/-- `String.prototype.trim` of JavaScript. -/
def jsTrim (s : Str) : Str :=
  ((s.dropWhile isJsWs).reverse.dropWhile isJsWs).reverse

mutual

/-- `String.prototype.split(/\s+/)`: piece accumulation state (currently
inside a piece whose reversed prefix is `acc`). -/
def splitWsGo : Str → Str → List Str
  | [], acc => [acc.reverse]
  | c :: t, acc =>
    if isJsWs c then acc.reverse :: splitWsRest t else splitWsGo t (c :: acc)

/-- `String.prototype.split(/\s+/)`: just consumed part of a separator
run; extend it maximally, then open the next piece. -/
def splitWsRest : Str → List Str
  | [] => [[]]
  | c :: t => if isJsWs c then splitWsRest t else splitWsGo t [c]

end

/-- `q.split(/\s+/)` of the source. -/
def splitWs (s : Str) : List Str := splitWsGo s []

/-- `q.split(/\s+/).filter(Boolean).length` of the source: the number of
whitespace-delimited tokens of a string. -/
def countTokens (s : Str) : Nat := ((splitWs s).filter (fun t => ¬t.isEmpty)).length

/-! ### The response parser (`parseFlashcards`)

The source scans the response with the global regex
`/Q:\s*([\s\S]+?)\s*A:\s*([\s\S]+?)(?=Q:|$)/g` in a `regex.exec` loop.
`matchAt s i` is the JavaScript backtracking search for a match of that
pattern starting exactly at position `i`: the candidate lists enumerate
quantifier choices in the engine's priority order (greedy `\s*` from the
longest run downwards, lazy `[\s\S]+?` from one character upwards), and
the first choice whose continuation succeeds is the match.  `execFrom`
advances the start position like `exec` does, and `parseLoop` is the
`while` loop collecting the trimmed capture groups. -/

/-- `[k, k-1, ..., 0]`: candidate lengths of a greedy `\s*`, longest first. -/
def downFrom : Nat → List Nat
  | 0 => [0]
  | k + 1 => (k + 1) :: downFrom k

/-- `[a, a+1, ..., a+n-1]`: candidate lengths of a lazy quantifier,
shortest first. -/
def countUp : Nat → Nat → List Nat
  | _, 0 => []
  | a, n + 1 => a :: countUp (a + 1) n

/-- Length of the whitespace run of `s` starting at position `i`
(the maximal text a `\s*` at `i` can consume). -/
def wsRun (s : Str) (i : Nat) : Nat := ((s.drop i).takeWhile isJsWs).length

/-- The two-character literal test: `s` has `c₁` at `i` and `c₂` at `i+1`. -/
def lit2 (s : Str) (i : Nat) (c₁ c₂ : Char) : Bool :=
  (s[i]? == some c₁) && (s[i + 1]? == some c₂)

/-- Backtracking match of `Q:\s*([\s\S]+?)\s*A:\s*([\s\S]+?)(?=Q:|$)`
anchored at position `i`; on success returns the end position and the two
capture groups. -/
def matchAt (s : Str) (i : Nat) : Option (Nat × Str × Str) :=
  if lit2 s i 'Q' ':' then
    (downFrom (wsRun s (i + 2))).findSome? (fun w1 =>
      (countUp 1 (s.length - (i + 2 + w1))).findSome? (fun g1 =>
        (downFrom (wsRun s (i + 2 + w1 + g1))).findSome? (fun w2 =>
          if lit2 s (i + 2 + w1 + g1 + w2) 'A' ':' then
            (downFrom (wsRun s (i + 2 + w1 + g1 + w2 + 2))).findSome? (fun w3 =>
              (countUp 1 (s.length - (i + 2 + w1 + g1 + w2 + 2 + w3))).findSome? (fun g2 =>
                if i + 2 + w1 + g1 + w2 + 2 + w3 + g2 = s.length ∨
                    lit2 s (i + 2 + w1 + g1 + w2 + 2 + w3 + g2) 'Q' ':' then
                  some (i + 2 + w1 + g1 + w2 + 2 + w3 + g2,
                    (s.drop (i + 2 + w1)).take g1,
                    (s.drop (i + 2 + w1 + g1 + w2 + 2 + w3)).take g2)
                else none))
          else none)))
  else none

/-- `regex.exec` with `lastIndex = i`: the first position `p ≥ i` at which
the pattern matches. -/
def execFrom (s : Str) (i : Nat) : Option (Nat × Str × Str) :=
  (countUp i (s.length + 1 - i)).findSome? (matchAt s)

/-- The `while ((match = regex.exec(text)))` loop of `parseFlashcards`.
The fuel argument is `s.length + 1` at the top-level call, which is
sufficient because every match strictly advances the position
(`execFrom_some`); `parseLoop_fuel_irrelevant` below certifies that the
result does not depend on the exact fuel. -/
def parseLoop : Nat → Str → Nat → List Flashcard
  | 0, _, _ => []
  | fuel + 1, s, i =>
    match execFrom s i with
    | none => []
    | some (e, q, a) => ⟨jsTrim q, jsTrim a⟩ :: parseLoop fuel s e

/-- `parseFlashcards` of the source. -/
def parseFlashcards (text : Str) : List Flashcard :=
  parseLoop (text.length + 1) text 0

/-! ### The component state

One field per React state cell of the `Flashcards` component (the
purely cosmetic `lastAnimatedCircle` cell is omitted; no operation reads
it).  `current` is an `Int` because the source never range-checks the
value handed to `setCurrent`.  The persistent `localStorage` value is the
`store` field of `AppState`, and `writes` counts `saveStoredSets` calls
so that store mutations can be stated exactly. -/

structure Session where
  subject : Str
  flashcards : List Flashcard
  loading : Bool
  error : Option Str
  current : Int
  showAnswer : Bool
  showGenerator : Bool
  addingMore : Bool
  storedSets : List StoredSet
  activeSubject : Option Str
  switchAnimKey : Nat
  lastCurrent : Int
  switching : Bool
deriving DecidableEq

structure AppState where
  session : Session
  store : List StoredSet
  writes : Nat
deriving DecidableEq

/-- `getStoredSets` of the source (the `localStorage` read). -/
def getStoredSets (st : AppState) : List StoredSet := st.store

/-- `saveStoredSets` of the source (the `localStorage` write). -/
def saveStoredSets (sets : List StoredSet) (st : AppState) : AppState :=
  { st with store := sets, writes := st.writes + 1 }

/-- `addStoredSet` of the source acting on the application state:
read the store, pick the unique name, `unshift`, write back. -/
def addStoredSetApp (subject : Str) (cards : List Flashcard) (st : AppState) :
    Str × AppState :=
  let r := addStoredSet subject cards (getStoredSets st)
  (r.1, saveStoredSets r.2 st)

/-- The `findIndex`-and-replace of `updateStoredSet`: `none` when no set
has the subject (in which case the source saves nothing). -/
def updateSets (subject : Str) (cards : List Flashcard) :
    List StoredSet → Option (List StoredSet)
  | [] => none
  | s :: t =>
    if s.subject = subject then some (⟨s.subject, cards⟩ :: t)
    else (updateSets subject cards t).map (fun t2 => s :: t2)

/-- `updateStoredSet` of the source: replace the card list of the set
with the given subject; silent no-op when absent. -/
def updateStoredSet (subject : Str) (cards : List Flashcard) (st : AppState) : AppState :=
  match updateSets subject cards (getStoredSets st) with
  | some sets => saveStoredSets sets st
  | none => st

/-! ### The generation orchestrator -/

/-- Message of the `throw` on a non-ok fetch response. -/
def fetchFailMsg : Str := "Failed to fetch flashcards from Gemini".toList

/-- Message of the `throw` when no `Q:/A:` unit parses. -/
def parseFailMsg : Str :=
  "Could not parse flashcards from Gemini\x27s response.".toList

/-- Message of the `throw` when the length filter removes every card. -/
def filterFailMsg : Str :=
  "Could not parse flashcards with questions under 30 words from Gemini\x27s response.".toList

/-- The `finally` block of `generateFlashcards`:
`setLoading(false); setAddingMore(false)`. -/
def finallyBlock (st : AppState) : AppState :=
  { st with session := { st.session with loading := false, addingMore := false } }

/-- `generateFlashcards` of the source as one synchronous transition.
`response = none` models a rejected/non-ok fetch (the `throw` at the
response check); `response = some text` models a resolved call whose
extracted `geminiText` is `text`.  The prompt construction is not
modelled: the text service is an external collaborator and the prompt
never influences the state transition. -/
def generateFlashcards (subject : Str) (prevQuestions : List Str) (response : Option Str)
    (st0 : AppState) : AppState :=
  let st := { st0 with session := { st0.session with loading := true, error := none } }
  match response with
  | none =>
    finallyBlock { st with session := { st.session with error := some fetchFailMsg } }
  | some text =>
    let cards := parseFlashcards text
    if cards.length = 0 then
      finallyBlock { st with session := { st.session with error := some parseFailMsg } }
    else
      let filteredCards := cards.filter (fun card => countTokens card.question < 30)
      if filteredCards.length = 0 then
        finallyBlock { st with session := { st.session with error := some filterFailMsg } }
      else if prevQuestions.length = 0 then
        let r := addStoredSetApp subject filteredCards st
        finallyBlock { r.2 with session := { r.2.session with
          storedSets := getStoredSets r.2,
          subject := r.1,
          activeSubject := some r.1,
          flashcards := filteredCards,
          showGenerator := false,
          current := 0,
          showAnswer := false,
          switchAnimKey := r.2.session.switchAnimKey + 1 } }
      else
        let updated := st.session.flashcards ++ filteredCards
        let st1 :=
          match st.session.activeSubject with
          | some act =>
            let st2 := updateStoredSet act updated st
            { st2 with session := { st2.session with storedSets := getStoredSets st2 } }
          | none => st
        finallyBlock { st1 with session := { st1.session with
          flashcards := updated,
          current := (st.session.flashcards.length : Int),
          showAnswer := false,
          switchAnimKey := st1.session.switchAnimKey + 1 } }

/-! ### The event handlers -/

/-- `handleSubmit` of the source (after `preventDefault`). -/
def handleSubmit (response : Option Str) (st0 : AppState) : AppState :=
  let st := { st0 with session := { st0.session with
    flashcards := [], current := 0, showAnswer := false, activeSubject := none,
    switchAnimKey := st0.session.switchAnimKey + 1 } }
  generateFlashcards st.session.subject [] response st

/-- `handleAddMore` of the source. -/
def handleAddMore (response : Option Str) (st0 : AppState) : AppState :=
  let st := { st0 with session := { st0.session with addingMore := true } }
  generateFlashcards (st.session.activeSubject.getD st.session.subject)
    (st.session.flashcards.map Flashcard.question) response st

/-- `handleFlip` of the source. -/
def handleFlip (st : AppState) : AppState :=
  { st with session := { st.session with showAnswer := !st.session.showAnswer } }

/-- `handleCircleClick` of the source (the `goTo` operation). -/
def handleCircleClick (idx : Int) (st0 : AppState) : AppState :=
  let st := if idx ≠ st0.session.current then
      { st0 with session := { st0.session with
        switchAnimKey := st0.session.switchAnimKey + 1 } }
    else st0
  { st with session := { st.session with current := idx, showAnswer := false } }

/-- `handleBackToGenerator` of the source. -/
def handleBackToGenerator (st : AppState) : AppState :=
  { st with session := { st.session with
    showGenerator := true, flashcards := [], current := 0, showAnswer := false,
    error := none, subject := [], activeSubject := none,
    switchAnimKey := st.session.switchAnimKey + 1 } }

/-- `handleStoredSetClick` of the source. -/
def handleStoredSetClick (set : StoredSet) (st : AppState) : AppState :=
  { st with session := { st.session with
    subject := set.subject, activeSubject := some set.subject,
    flashcards := set.flashcards, showGenerator := false,
    current := 0, showAnswer := false, error := none,
    switchAnimKey := st.session.switchAnimKey + 1 } }

/-- `handleDeleteStoredSet` of the source. -/
def handleDeleteStoredSet (subjectToDelete : Str) (st0 : AppState) : AppState :=
  let sets := (getStoredSets st0).filter (fun s => s.subject ≠ subjectToDelete)
  let st1 := saveStoredSets sets st0
  let st := { st1 with session := { st1.session with storedSets := sets } }
  if st.session.showGenerator = false ∧
      (st.session.activeSubject = some subjectToDelete ∨
        st.session.subject = subjectToDelete)
  then handleBackToGenerator st
  else st

/-- `handlePrev` of the source. -/
def handlePrev (st : AppState) : AppState :=
  if st.session.current > 0 then
    { st with session := { st.session with
      switchAnimKey := st.session.switchAnimKey + 1,
      current := st.session.current - 1, showAnswer := false } }
  else st

/-- `handleNext` of the source. -/
def handleNext (st : AppState) : AppState :=
  if st.session.current < (st.session.flashcards.length : Int) - 1 then
    { st with session := { st.session with
      switchAnimKey := st.session.switchAnimKey + 1,
      current := st.session.current + 1, showAnswer := false } }
  else st

/-- The `useEffect` watching `current` (lines 446-453 of the source):
whenever the position changed since the last render, raise the
`switching` flag and remember the position.  The paired 220 ms timeout is
the `switchTimerFire` event below. -/
def applySwitchEffect (st : AppState) : AppState :=
  if st.session.lastCurrent ≠ st.session.current then
    { st with session := { st.session with
      switching := true, lastCurrent := st.session.current } }
  else st

/-! ### The event system

One constructor per user-triggerable operation.  Each event is guarded
exactly by the conditions under which the source UI can deliver it: a
control that is not rendered, or rendered `disabled`, cannot fire, so the
corresponding event is a no-op.  The generation events carry the
`response` of the external text service. -/

inductive Ev where
  | submit (response : Option Str)
  | addMore (response : Option Str)
  | flip
  | circleClick (idx : Nat)
  | backToGenerator
  | storedSetClick (k : Nat)
  | deleteStoredSet (k : Nat)
  | prev
  | next
  | typeSubject (text : Str)
  | switchTimerFire

/-- One user-visible transition: the guarded handler, followed by the
render effect that maintains the `switching` flag. -/
def step : Ev → AppState → AppState
  | .submit response, st =>
    applySwitchEffect <|
      if st.session.showGenerator = true ∧ st.session.loading = false ∧
          st.session.subject ≠ []
      then handleSubmit response st else st
  | .addMore response, st =>
    applySwitchEffect <|
      if st.session.showGenerator = false ∧ st.session.flashcards ≠ [] ∧
          st.session.loading = false ∧ st.session.addingMore = false
      then handleAddMore response st else st
  | .flip, st =>
    applySwitchEffect <|
      if st.session.showGenerator = false ∧ st.session.flashcards ≠ []
      then handleFlip st else st
  | .circleClick idx, st =>
    applySwitchEffect <|
      if st.session.showGenerator = false ∧ idx < st.session.flashcards.length
      then handleCircleClick (idx : Int) st else st
  | .backToGenerator, st =>
    applySwitchEffect <|
      if st.session.showGenerator = false ∧ st.session.flashcards ≠ []
      then handleBackToGenerator st else st
  | .storedSetClick k, st =>
    applySwitchEffect <|
      if st.session.showGenerator = true then
        match st.session.storedSets[k]? with
        | some set => handleStoredSetClick set st
        | none => st
      else st
  | .deleteStoredSet k, st =>
    applySwitchEffect <|
      if st.session.showGenerator = true then
        match st.session.storedSets[k]? with
        | some set => handleDeleteStoredSet set.subject st
        | none => st
      else st
  | .prev, st =>
    applySwitchEffect <|
      if st.session.showGenerator = false ∧ st.session.flashcards ≠ []
      then handlePrev st else st
  | .next, st =>
    applySwitchEffect <|
      if st.session.showGenerator = false ∧ st.session.flashcards ≠ []
      then handleNext st else st
  | .typeSubject text, st =>
    applySwitchEffect <|
      if st.session.showGenerator = true ∧ st.session.loading = false then
        { st with session := { st.session with subject := text } }
      else st
  | .switchTimerFire, st =>
    applySwitchEffect { st with session := { st.session with switching := false } }

/-! ### The state invariant -/

/-- Main part of the invariant: the React mirror of the store is in sync;
every stored set has cards; and the view-dependent constraints: on the
entry view the browsing cells are at their reset values, on the browsing
view there is an active subject that is stored, equals the text field,
and the position is in range of the non-empty card list. -/
def Inv0 (st : AppState) : Prop :=
  st.session.storedSets = st.store ∧
  (∀ set ∈ st.store, set.flashcards ≠ []) ∧
  st.session.loading = false ∧
  st.session.addingMore = false ∧
  (st.session.showGenerator = true →
    st.session.activeSubject = none ∧ st.session.flashcards = [] ∧
    st.session.current = 0 ∧ st.session.showAnswer = false) ∧
  (st.session.showGenerator = false →
    (∃ act, st.session.activeSubject = some act ∧ st.session.subject = act ∧
      act ∈ st.store.map StoredSet.subject) ∧
    st.session.flashcards ≠ [] ∧
    0 ≤ st.session.current ∧
    st.session.current < (st.session.flashcards.length : Int))

/-- The full invariant: `Inv0` plus the render effect having settled
(`lastCurrent` agrees with `current`). -/
def Inv (st : AppState) : Prop :=
  Inv0 st ∧ st.session.lastCurrent = st.session.current

/-! ### Concrete example states -/

/-- A sample card. -/
def cardQ1 : Flashcard := ⟨"q1".toList, "a1".toList⟩

/-- A second sample card. -/
def cardQ2 : Flashcard := ⟨"q2".toList, "a2".toList⟩

/-- A stored set with two cards. -/
def setMath : StoredSet := ⟨"Math".toList, [cardQ1, cardQ2]⟩

/-- A browsing-view state: the set `Math` is open at card 0. -/
def stBrowse : AppState :=
  { session :=
      { subject := "Math".toList, flashcards := [cardQ1, cardQ2], loading := false,
        error := none, current := 0, showAnswer := false, showGenerator := false,
        addingMore := false, storedSets := [setMath], activeSubject := some ("Math".toList),
        switchAnimKey := 0, lastCurrent := 0, switching := false },
    store := [setMath], writes := 0 }

/-- A browsing-view state at card 1 with the answer revealed. -/
def stRevealed : AppState :=
  { session :=
      { subject := "Math".toList, flashcards := [cardQ1, cardQ2], loading := false,
        error := none, current := 1, showAnswer := true, showGenerator := false,
        addingMore := false, storedSets := [setMath], activeSubject := some ("Math".toList),
        switchAnimKey := 0, lastCurrent := 1, switching := false },
    store := [setMath], writes := 0 }

/-- An entry-view (generator) state with a typed subject and empty store. -/
def stEntry : AppState :=
  { session :=
      { subject := "Math".toList, flashcards := [], loading := false,
        error := none, current := 0, showAnswer := false, showGenerator := true,
        addingMore := false, storedSets := [], activeSubject := none,
        switchAnimKey := 0, lastCurrent := 0, switching := false },
    store := [], writes := 0 }

/-- A question of exactly 30 whitespace-delimited tokens. -/
def q30 : Str :=
  "w w w w w w w w w w w w w w w w w w w w w w w w w w w w w w".toList

/-- A question of exactly 29 whitespace-delimited tokens. -/
def q29 : Str :=
  "w w w w w w w w w w w w w w w w w w w w w w w w w w w w w".toList

/-- A response whose only parsed card has a 30-token question. -/
def text30 : Str :=
  "Q: w w w w w w w w w w w w w w w w w w w w w w w w w w w w w w A: x".toList

/-- Every state component other than the error message and the cosmetic
animation/switching cells: used to state what a failed generation call
must leave untouched. -/
def sameExceptError (st st2 : AppState) : Prop :=
  st2.store = st.store ∧ st2.writes = st.writes ∧
  st2.session.flashcards = st.session.flashcards ∧
  st2.session.current = st.session.current ∧
  st2.session.showAnswer = st.session.showAnswer ∧
  st2.session.activeSubject = st.session.activeSubject ∧
  st2.session.subject = st.session.subject ∧
  st2.session.showGenerator = st.session.showGenerator ∧
  st2.session.storedSets = st.session.storedSets ∧
  st2.session.loading = st.session.loading ∧
  st2.session.addingMore = st.session.addingMore

theorem toDigitsRev_ofDigits : ∀ (f n : Nat), n ≤ f →
    Nat.ofDigits 10 (toDigitsRev f n) = n := by
  intro f
  induction f with
  | zero => intro n hn; interval_cases n; simp [toDigitsRev]
  | succ f ih =>
    intro n hn
    by_cases h0 : n = 0
    · simp [toDigitsRev, h0]
    · have hdiv : n / 10 ≤ f := by
        have : n / 10 < n := Nat.div_lt_self (Nat.pos_of_ne_zero h0) (by omega)
        omega
      simp only [toDigitsRev, h0, if_false, Nat.ofDigits_cons, ih _ hdiv]
      omega

theorem toDigitsRev_lt : ∀ (f n : Nat), ∀ d ∈ toDigitsRev f n, d < 10 := by
  intro f
  induction f with
  | zero => intro n d hd; simp [toDigitsRev] at hd
  | succ f ih =>
    intro n d hd
    by_cases h0 : n = 0
    · simp [toDigitsRev, h0] at hd
    · simp only [toDigitsRev, h0, if_false, List.mem_cons] at hd
      rcases hd with h | h
      · omega
      · exact ih _ _ h

theorem toDigitsRev_ne_nil (n : Nat) (h : n ≠ 0) : toDigitsRev n n ≠ [] := by
  cases n with
  | zero => exact absurd rfl h
  | succ m => simp [toDigitsRev, h]

theorem digit_char_spec (d : Nat) (hd : d < 10) :
    digitVal (Char.ofNat (48 + d)) = d ∧ (Char.ofNat (48 + d)).isDigit = true := by
  interval_cases d <;> exact ⟨by decide, by decide⟩

theorem digitsVal_rev (L : List Nat) (hL : ∀ d ∈ L, d < 10) :
    digitsVal ((L.reverse).map (fun d => Char.ofNat (48 + d))) = Nat.ofDigits 10 L := by
  induction L with
  | nil => simp [digitsVal]
  | cons x T ih =>
    have hx : x < 10 := hL x (List.mem_cons_self x T)
    have hT : ∀ d ∈ T, d < 10 := fun d hd => hL d (List.mem_cons_of_mem x hd)
    simp only [List.reverse_cons, List.map_append, List.map_cons, List.map_nil]
    simp only [digitsVal, List.foldl_append, List.foldl_cons, List.foldl_nil]
    have := ih hT
    simp only [digitsVal] at this
    rw [this, (digit_char_spec x hx).1, Nat.ofDigits_cons]
    ring

theorem digitsVal_natDigits (n : Nat) : digitsVal (natDigits n) = n := by
  by_cases h0 : n = 0
  · subst h0; decide
  · unfold natDigits
    rw [if_neg h0, digitsVal_rev _ (toDigitsRev_lt n n), toDigitsRev_ofDigits n n le_rfl]

theorem natDigits_ne_nil (n : Nat) : natDigits n ≠ [] := by
  by_cases h0 : n = 0
  · subst h0; decide
  · unfold natDigits
    rw [if_neg h0]
    intro h
    have := toDigitsRev_ne_nil n h0
    simp at h
    exact this h

theorem natDigits_all_digits (n : Nat) : (natDigits n).all Char.isDigit = true := by
  by_cases h0 : n = 0
  · subst h0; decide
  · unfold natDigits
    rw [if_neg h0]
    rw [List.all_eq_true]
    intro c hc
    simp only [List.mem_map, List.mem_reverse] at hc
    obtain ⟨d, hd, rfl⟩ := hc
    exact (digit_char_spec d (toDigitsRev_lt n n d hd)).2

theorem isPrefixOf_append_self : ∀ (l r : Str), l.isPrefixOf (l ++ r) = true := by
  intro l
  induction l with
  | nil => intro r; simp [List.isPrefixOf]
  | cons c t ih => intro r; simp [List.isPrefixOf, ih]

theorem subjectMatch_self (base : Str) : subjectMatch base base = some none := by
  unfold subjectMatch
  have h1 : base.isPrefixOf base = true := by
    have h := isPrefixOf_append_self base []
    rwa [List.append_nil] at h
  rw [h1, if_pos rfl, List.drop_length]

theorem subjectMatch_suffix (base : Str) (k : Nat) :
    subjectMatch base (base ++ ('(' :: natDigits k ++ [')'])) = some (some k) := by
  unfold subjectMatch
  rw [isPrefixOf_append_self base ('(' :: natDigits k ++ [')']), if_pos rfl]
  rw [List.drop_left]
  have h1 : (natDigits k ++ [')']).getLast? = some ')' := by
    simp [List.getLast?_concat]
  have h2 : (natDigits k ++ [')']).dropLast = natDigits k := by
    simp [List.dropLast_concat]
  have h3 : (natDigits k).isEmpty = false := by
    cases h : natDigits k with
    | nil => exact absurd h (natDigits_ne_nil k)
    | cons c t => rfl
  show (if '(' = '(' ∧ (natDigits k ++ [')']).getLast? = some ')' ∧
      ¬(natDigits k ++ [')']).dropLast.isEmpty = true ∧
      (natDigits k ++ [')']).dropLast.all Char.isDigit = true
    then some (some (digitsVal (natDigits k ++ [')']).dropLast)) else none) = some (some k)
  rw [if_pos ⟨rfl, h1, by rw [h2, h3]; simp, by rw [h2]; exact natDigits_all_digits k⟩]
  rw [h2, digitsVal_natDigits k]

theorem scan_fst (base : Str) : ∀ (sets : List StoredSet) (acc : Bool × Int),
    (sets.foldl (scanStep base) acc).1 = (acc.1 || sets.any (isExactHit base)) := by
  intro sets
  induction sets with
  | nil => intro acc; simp
  | cons s t ih =>
    intro acc
    rw [List.foldl_cons, ih, List.any_cons]
    cases h : subjectMatch base s.subject with
    | none => simp [scanStep, isExactHit, h]
    | some v =>
      cases v with
      | none => simp [scanStep, isExactHit, h]
      | some idx => simp [scanStep, isExactHit, h]

theorem scan_snd_le (base : Str) : ∀ (sets : List StoredSet) (acc : Bool × Int),
    acc.2 ≤ (sets.foldl (scanStep base) acc).2 := by
  intro sets
  induction sets with
  | nil => intro acc; simp
  | cons s t ih =>
    intro acc
    rw [List.foldl_cons]
    refine le_trans ?_ (ih (scanStep base acc s))
    unfold scanStep
    cases h : subjectMatch base s.subject with
    | none => simp
    | some v =>
      cases v with
      | none => simp
      | some idx =>
        simp only []
        split <;> omega

theorem scan_snd_ge (base : Str) : ∀ (sets : List StoredSet) (acc : Bool × Int)
    (set : StoredSet) (idx : Nat), set ∈ sets →
    subjectMatch base set.subject = some (some idx) →
    (idx : Int) ≤ (sets.foldl (scanStep base) acc).2 := by
  intro sets
  induction sets with
  | nil => intro acc set idx h; simp at h
  | cons s t ih =>
    intro acc set idx hmem hm
    rw [List.foldl_cons]
    rcases List.mem_cons.mp hmem with rfl | hmem
    · refine le_trans ?_ (scan_snd_le base t (scanStep base acc set))
      unfold scanStep
      rw [hm]
      simp only []
      split <;> omega
    · exact ih (scanStep base acc s) set idx hmem hm

theorem scanSets_fst (base : Str) (sets : List StoredSet) :
    (scanSets base sets).1 = sets.any (isExactHit base) := by
  unfold scanSets
  rw [scan_fst base sets (false, -1)]
  simp

theorem scanSets_snd_le (base : Str) (sets : List StoredSet) :
    (-1 : Int) ≤ (scanSets base sets).2 :=
  scan_snd_le base sets (false, -1)

theorem scanSets_snd_ge (base : Str) (sets : List StoredSet) (set : StoredSet)
    (idx : Nat) (hmem : set ∈ sets)
    (hm : subjectMatch base set.subject = some (some idx)) :
    (idx : Int) ≤ (scanSets base sets).2 :=
  scan_snd_ge base sets (false, -1) set idx hmem hm

/-- The freshly chosen subject never collides with a stored subject. -/
theorem getUniqueSubjectName_not_mem (base : Str) (sets : List StoredSet) :
    getUniqueSubjectName base sets ∉ sets.map StoredSet.subject := by
  intro hmem
  unfold getUniqueSubjectName at hmem
  rcases hfb : (scanSets base sets).1 with _ | _
  · rw [hfb, if_neg (by simp)] at hmem
    simp only [List.mem_map] at hmem
    obtain ⟨set, hset, hsubj⟩ := hmem
    have hhit : sets.any (isExactHit base) = true := by
      rw [List.any_eq_true]
      refine ⟨set, hset, ?_⟩
      unfold isExactHit
      rw [hsubj, subjectMatch_self base]
    rw [scanSets_fst] at hfb
    rw [hfb] at hhit
    cases hhit
  · rw [hfb, if_pos rfl] at hmem
    simp only [List.mem_map] at hmem
    obtain ⟨set, hset, hsubj⟩ := hmem
    have hlb : (-1 : Int) ≤ (scanSets base sets).2 := scanSets_snd_le base sets
    have hk : (((scanSets base sets).2 + 1).toNat : Int) = (scanSets base sets).2 + 1 :=
      Int.toNat_of_nonneg (by omega)
    have hmatch : subjectMatch base set.subject =
        some (some ((scanSets base sets).2 + 1).toNat) := by
      rw [hsubj]; exact subjectMatch_suffix base ((scanSets base sets).2 + 1).toNat
    have hge := scanSets_snd_ge base sets set (((scanSets base sets).2 + 1).toNat) hset hmatch
    rw [hk] at hge
    omega

/-- Pairwise-distinct stored subjects are preserved by `addStoredSet`. -/
theorem addStoredSet_nodup (subject : Str) (cards : List Flashcard)
    (sets : List StoredSet) (h : (sets.map StoredSet.subject).Nodup) :
    (((addStoredSet subject cards sets).2).map StoredSet.subject).Nodup := by
  unfold addStoredSet
  simp only [List.map_cons, List.nodup_cons]
  exact ⟨getUniqueSubjectName_not_mem subject sets, h⟩

theorem runAdds_nodup_aux : ∀ (ops : List (Str × List Flashcard))
    (sets : List StoredSet), (sets.map StoredSet.subject).Nodup →
    ((ops.foldl (fun sets op => (addStoredSet op.1 op.2 sets).2) sets).map
      StoredSet.subject).Nodup := by
  intro ops
  induction ops with
  | nil => intro sets h; simpa using h
  | cons op t ih =>
    intro sets h
    simp only [List.foldl_cons]
    exact ih _ (addStoredSet_nodup op.1 op.2 sets h)

theorem findSome_ex {α β : Type} (f : α → Option β) (b : β) :
    ∀ (l : List α), l.findSome? f = some b → ∃ a ∈ l, f a = some b := by
  intro l
  induction l with
  | nil => intro h; simp [List.findSome?] at h
  | cons x t ih =>
    intro h
    rw [List.findSome?] at h
    cases hx : f x with
    | none =>
      rw [hx] at h
      obtain ⟨a, ha, hfa⟩ := ih h
      exact ⟨a, List.mem_cons_of_mem x ha, hfa⟩
    | some v =>
      rw [hx] at h
      have h2 : some v = some b := h
      exact ⟨x, List.mem_cons_self x t, by rw [hx]; exact h2⟩

theorem mem_downFrom : ∀ (k x : Nat), x ∈ downFrom k → x ≤ k := by
  intro k
  induction k with
  | zero => intro x h; simp [downFrom] at h; omega
  | succ k ih =>
    intro x h
    rw [downFrom, List.mem_cons] at h
    rcases h with rfl | h
    · omega
    · exact le_trans (ih x h) (by omega)

theorem mem_countUp : ∀ (n a x : Nat), x ∈ countUp a n → a ≤ x ∧ x < a + n := by
  intro n
  induction n with
  | zero => intro a x h; simp [countUp] at h
  | succ n ih =>
    intro a x h
    rw [countUp, List.mem_cons] at h
    rcases h with rfl | h
    · omega
    · have := ih (a + 1) x h; omega

theorem matchAt_some (s : Str) (i : Nat) (r : Nat × Str × Str)
    (h : matchAt s i = some r) :
    i + 6 ≤ r.1 ∧ r.1 ≤ s.length ∧ r.2.1 ≠ [] ∧ r.2.2 ≠ [] := by
  unfold matchAt at h
  split at h
  case isFalse => exact absurd h (by simp)
  case isTrue =>
    obtain ⟨w1, hw1, h⟩ := findSome_ex _ _ _ h
    obtain ⟨g1, hg1, h⟩ := findSome_ex _ _ _ h
    obtain ⟨w2, hw2, h⟩ := findSome_ex _ _ _ h
    split at h
    case isFalse => exact absurd h (by simp)
    case isTrue =>
      obtain ⟨w3, hw3, h⟩ := findSome_ex _ _ _ h
      obtain ⟨g2, hg2, h⟩ := findSome_ex _ _ _ h
      split at h
      case isFalse => exact absurd h (by simp)
      case isTrue =>
        have hg1b := mem_countUp _ _ _ hg1
        have hg2b := mem_countUp _ _ _ hg2
        rw [Option.some.injEq] at h
        subst h
        refine ⟨?_, ?_, ?_, ?_⟩
        · show i + 6 ≤ i + 2 + w1 + g1 + w2 + 2 + w3 + g2
          omega
        · show i + 2 + w1 + g1 + w2 + 2 + w3 + g2 ≤ s.length
          omega
        · show (s.drop (i + 2 + w1)).take g1 ≠ []
          intro hnil
          have hlen := congrArg List.length hnil
          rw [List.length_take, List.length_drop] at hlen
          simp at hlen
          omega
        · show (s.drop (i + 2 + w1 + g1 + w2 + 2 + w3)).take g2 ≠ []
          intro hnil
          have hlen := congrArg List.length hnil
          rw [List.length_take, List.length_drop] at hlen
          simp at hlen
          omega

theorem execFrom_some (s : Str) (i : Nat) (r : Nat × Str × Str)
    (h : execFrom s i = some r) :
    i < r.1 ∧ r.1 ≤ s.length ∧ r.2.1 ≠ [] ∧ r.2.2 ≠ [] := by
  unfold execFrom at h
  obtain ⟨p, hp, hm⟩ := findSome_ex _ _ _ h
  have hpb := mem_countUp _ _ _ hp
  have := matchAt_some s p r hm
  exact ⟨by omega, this.2.1, this.2.2.1, this.2.2.2⟩

theorem execFrom_stop (s : Str) (i : Nat) (h : s.length + 1 ≤ i) :
    execFrom s i = none := by
  unfold execFrom
  have : s.length + 1 - i = 0 := by omega
  rw [this]
  rfl

theorem parseLoop_fuel_irrelevant :
    ∀ (f₁ f₂ : Nat) (s : Str) (i : Nat), s.length + 1 - i ≤ f₁ → s.length + 1 - i ≤ f₂ →
    parseLoop f₁ s i = parseLoop f₂ s i := by
  intro f₁
  induction f₁ with
  | zero =>
    intro f₂ s i h1 h2
    cases f₂ with
    | zero => rfl
    | succ f₂ =>
      rw [parseLoop, parseLoop, execFrom_stop s i (by omega)]
  | succ f₁ ih =>
    intro f₂ s i h1 h2
    cases f₂ with
    | zero =>
      rw [parseLoop, parseLoop, execFrom_stop s i (by omega)]
    | succ f₂ =>
      rw [parseLoop, parseLoop]
      cases he : execFrom s i with
      | none => rfl
      | some r =>
        obtain ⟨e, q, a⟩ := r
        have hb := execFrom_some s i (e, q, a) he
        simp only at hb
        show (⟨jsTrim q, jsTrim a⟩ : Flashcard) :: parseLoop f₁ s e =
          (⟨jsTrim q, jsTrim a⟩ : Flashcard) :: parseLoop f₂ s e
        rw [ih f₂ s e (by omega) (by omega)]

theorem parseLoop_spans : ∀ (fuel : Nat) (s : Str) (i : Nat) (c : Flashcard),
    c ∈ parseLoop fuel s i →
    ∃ q a, q ≠ [] ∧ a ≠ [] ∧ c.question = jsTrim q ∧ c.answer = jsTrim a := by
  intro fuel
  induction fuel with
  | zero => intro s i c h; simp [parseLoop] at h
  | succ fuel ih =>
    intro s i c h
    rw [parseLoop] at h
    cases he : execFrom s i with
    | none => rw [he] at h; simp at h
    | some r =>
      obtain ⟨e, q, a⟩ := r
      rw [he] at h
      have hb := execFrom_some s i (e, q, a) he
      simp only at hb
      have h2 : c ∈ (⟨jsTrim q, jsTrim a⟩ : Flashcard) :: parseLoop fuel s e := h
      rcases List.mem_cons.mp h2 with rfl | h3
      · exact ⟨q, a, hb.2.2.1, hb.2.2.2, rfl, rfl⟩
      · exact ih s e c h3

theorem updateSets_spec (subject : Str) (cards : List Flashcard) :
    ∀ sets : List StoredSet, subject ∈ sets.map StoredSet.subject →
    ∃ sets2, updateSets subject cards sets = some sets2 ∧
      sets2.map StoredSet.subject = sets.map StoredSet.subject ∧
      (∀ set ∈ sets2, set ∈ sets ∨ set.flashcards = cards) := by
  intro sets
  induction sets with
  | nil => intro h; simp at h
  | cons s t ih =>
    intro h
    by_cases hs : s.subject = subject
    · refine ⟨⟨s.subject, cards⟩ :: t, ?_, ?_, ?_⟩
      · rw [updateSets, if_pos hs]
      · simp
      · intro set hmem
        rcases List.mem_cons.mp hmem with rfl | hmem
        · exact Or.inr rfl
        · exact Or.inl (List.mem_cons_of_mem s hmem)
    · have hmem : subject ∈ t.map StoredSet.subject := by
        rw [List.map_cons, List.mem_cons] at h
        rcases h with h1 | h1
        · exact absurd h1.symm hs
        · exact h1
      obtain ⟨t2, ht2, hsubj, hel⟩ := ih hmem
      refine ⟨s :: t2, ?_, ?_, ?_⟩
      · rw [updateSets, if_neg hs, ht2]; rfl
      · simp [hsubj]
      · intro set hm
        rcases List.mem_cons.mp hm with rfl | hm
        · exact Or.inl (List.mem_cons_self set t)
        · rcases hel set hm with h1 | h1
          · exact Or.inl (List.mem_cons_of_mem s h1)
          · exact Or.inr h1

theorem generate_fail (subject : Str) (prevQuestions : List Str) (response : Option Str)
    (st0 : AppState)
    (h : response = none ∨ ∃ text, response = some text ∧
      ((parseFlashcards text).filter (fun card => countTokens card.question < 30)).length = 0) :
    ∃ msg, generateFlashcards subject prevQuestions response st0 =
      { st0 with session := { st0.session with
        loading := false, addingMore := false, error := some msg } } := by
  rcases h with rfl | ⟨text, rfl, hf⟩
  · exact ⟨fetchFailMsg, by simp [generateFlashcards, finallyBlock]⟩
  · by_cases hp : (parseFlashcards text).length = 0
    · exact ⟨parseFailMsg, by simp [generateFlashcards, finallyBlock, hp]⟩
    · exact ⟨filterFailMsg, by simp [generateFlashcards, finallyBlock, hp, hf]⟩

theorem generate_success_initial (subject text : Str) (st0 : AppState)
    (hf : ((parseFlashcards text).filter (fun card => countTokens card.question < 30)).length ≠ 0) :
    generateFlashcards subject [] (some text) st0 =
      { st0 with
        store := ⟨getUniqueSubjectName subject st0.store,
          (parseFlashcards text).filter (fun card => countTokens card.question < 30)⟩ :: st0.store,
        writes := st0.writes + 1,
        session := { st0.session with
          storedSets := ⟨getUniqueSubjectName subject st0.store,
            (parseFlashcards text).filter (fun card => countTokens card.question < 30)⟩ :: st0.store,
          subject := getUniqueSubjectName subject st0.store,
          activeSubject := some (getUniqueSubjectName subject st0.store),
          flashcards := (parseFlashcards text).filter (fun card => countTokens card.question < 30),
          showGenerator := false,
          current := 0,
          showAnswer := false,
          switchAnimKey := st0.session.switchAnimKey + 1,
          loading := false,
          addingMore := false,
          error := none } } := by
  have hp : ¬(parseFlashcards text).length = 0 := by
    intro h
    rw [List.length_eq_zero] at h
    rw [h] at hf
    simp at hf
  simp [generateFlashcards, finallyBlock, addStoredSetApp, addStoredSet, saveStoredSets,
    getStoredSets, hp, hf]

theorem generate_success_cont (subject text : Str) (prevQuestions : List Str) (act : Str)
    (st0 : AppState) (sets2 : List StoredSet)
    (hprev : prevQuestions.length ≠ 0)
    (hact : st0.session.activeSubject = some act)
    (hf : ((parseFlashcards text).filter (fun card => countTokens card.question < 30)).length ≠ 0)
    (hupd : updateSets act (st0.session.flashcards ++
      (parseFlashcards text).filter (fun card => countTokens card.question < 30)) st0.store = some sets2) :
    generateFlashcards subject prevQuestions (some text) st0 =
      { st0 with
        store := sets2,
        writes := st0.writes + 1,
        session := { st0.session with
          storedSets := sets2,
          flashcards := st0.session.flashcards ++
            (parseFlashcards text).filter (fun card => countTokens card.question < 30),
          current := (st0.session.flashcards.length : Int),
          showAnswer := false,
          switchAnimKey := st0.session.switchAnimKey + 1,
          loading := false,
          addingMore := false,
          error := none } } := by
  have hp : ¬(parseFlashcards text).length = 0 := by
    intro h
    rw [List.length_eq_zero] at h
    rw [h] at hf
    simp at hf
  simp [generateFlashcards, finallyBlock, updateStoredSet, saveStoredSets,
    getStoredSets, hp, hf, hprev, hact, hupd]

theorem inv_applySwitchEffect (st : AppState) (h : Inv0 st) : Inv (applySwitchEffect st) := by
  unfold applySwitchEffect
  split
  case isTrue hne => exact ⟨h, rfl⟩
  case isFalse hne => exact ⟨h, not_ne_iff.mp hne⟩

theorem handleSubmit_fail (response : Option Str) (st0 : AppState)
    (h : response = none ∨ ∃ text, response = some text ∧
      ((parseFlashcards text).filter (fun card => countTokens card.question < 30)).length = 0) :
    ∃ msg, handleSubmit response st0 =
      { st0 with session := { st0.session with
        flashcards := [], current := 0, showAnswer := false, activeSubject := none,
        switchAnimKey := st0.session.switchAnimKey + 1,
        loading := false, addingMore := false, error := some msg } } := by
  obtain ⟨msg, hmsg⟩ := generate_fail
    ({ st0 with session := { st0.session with
        flashcards := [], current := 0, showAnswer := false, activeSubject := none,
        switchAnimKey := st0.session.switchAnimKey + 1 } }).session.subject [] response
    { st0 with session := { st0.session with
        flashcards := [], current := 0, showAnswer := false, activeSubject := none,
        switchAnimKey := st0.session.switchAnimKey + 1 } } h
  refine ⟨msg, ?_⟩
  rw [handleSubmit]
  simp only at hmsg
  rw [hmsg]

theorem handleSubmit_success (text : Str) (st0 : AppState)
    (hf : ((parseFlashcards text).filter (fun card => countTokens card.question < 30)).length ≠ 0) :
    handleSubmit (some text) st0 =
      { st0 with
        store := ⟨getUniqueSubjectName st0.session.subject st0.store,
          (parseFlashcards text).filter (fun card => countTokens card.question < 30)⟩ :: st0.store,
        writes := st0.writes + 1,
        session := { st0.session with
          storedSets := ⟨getUniqueSubjectName st0.session.subject st0.store,
            (parseFlashcards text).filter (fun card => countTokens card.question < 30)⟩ :: st0.store,
          subject := getUniqueSubjectName st0.session.subject st0.store,
          activeSubject := some (getUniqueSubjectName st0.session.subject st0.store),
          flashcards := (parseFlashcards text).filter (fun card => countTokens card.question < 30),
          showGenerator := false,
          current := 0,
          showAnswer := false,
          switchAnimKey := st0.session.switchAnimKey + 2,
          loading := false,
          addingMore := false,
          error := none } } := by
  rw [handleSubmit]
  rw [generate_success_initial _ text _ hf]

theorem handleAddMore_fail (response : Option Str) (st0 : AppState)
    (h : response = none ∨ ∃ text, response = some text ∧
      ((parseFlashcards text).filter (fun card => countTokens card.question < 30)).length = 0) :
    ∃ msg, handleAddMore response st0 =
      { st0 with session := { st0.session with
        loading := false, addingMore := false, error := some msg } } := by
  obtain ⟨msg, hmsg⟩ := generate_fail
    (({ st0 with session := { st0.session with addingMore := true } }).session.activeSubject.getD
      ({ st0 with session := { st0.session with addingMore := true } }).session.subject)
    (({ st0 with session := { st0.session with addingMore := true } }).session.flashcards.map
      Flashcard.question)
    response
    { st0 with session := { st0.session with addingMore := true } } h
  refine ⟨msg, ?_⟩
  rw [handleAddMore]
  simp only at hmsg
  rw [hmsg]

theorem handleAddMore_success (text : Str) (st0 : AppState) (act : Str)
    (sets2 : List StoredSet)
    (hcards : st0.session.flashcards ≠ [])
    (hact : st0.session.activeSubject = some act)
    (hf : ((parseFlashcards text).filter (fun card => countTokens card.question < 30)).length ≠ 0)
    (hupd : updateSets act (st0.session.flashcards ++
      (parseFlashcards text).filter (fun card => countTokens card.question < 30)) st0.store =
      some sets2) :
    handleAddMore (some text) st0 =
      { st0 with
        store := sets2,
        writes := st0.writes + 1,
        session := { st0.session with
          storedSets := sets2,
          flashcards := st0.session.flashcards ++
            (parseFlashcards text).filter (fun card => countTokens card.question < 30),
          current := (st0.session.flashcards.length : Int),
          showAnswer := false,
          switchAnimKey := st0.session.switchAnimKey + 1,
          loading := false,
          addingMore := false,
          error := none } } := by
  rw [handleAddMore]
  rw [generate_success_cont _ text _ act _ sets2 (by simpa using hcards) (by simpa using hact) hf
    (by simpa using hupd)]

/-! ### Preservation of the invariant -/

theorem filter30_ne_nil {text : Str}
    (hf : ((parseFlashcards text).filter (fun card => countTokens card.question < 30)).length ≠ 0) :
    (parseFlashcards text).filter (fun card => countTokens card.question < 30) ≠ [] := by
  intro hnil
  rw [hnil] at hf
  simp at hf

theorem inv_step (ev : Ev) (st : AppState) (h : Inv st) : Inv (step ev st) := by
  obtain ⟨h0, hlc⟩ := h
  cases ev with
  | submit response =>
    rw [step]
    apply inv_applySwitchEffect
    split
    case isFalse => exact h0
    case isTrue hg =>
      obtain ⟨hgen, hload, hsubj⟩ := hg
      by_cases hfail : response = none ∨ ∃ text, response = some text ∧
          ((parseFlashcards text).filter (fun card => countTokens card.question < 30)).length = 0
      · obtain ⟨msg, hmsg⟩ := handleSubmit_fail response st hfail
        rw [hmsg]
        refine ⟨h0.1, h0.2.1, rfl, rfl, fun _ => ⟨rfl, rfl, rfl, rfl⟩, fun h2 => ?_⟩
        have h3 : st.session.showGenerator = false := h2
        rw [hgen] at h3
        cases h3
      · push_neg at hfail
        obtain ⟨text, rfl⟩ : ∃ text, response = some text := by
          cases response with
          | none => exact absurd rfl hfail.1
          | some t => exact ⟨t, rfl⟩
        have hf := hfail.2 text rfl
        rw [handleSubmit_success text st hf]
        have hpos : 0 < ((parseFlashcards text).filter
            (fun card => countTokens card.question < 30)).length := Nat.pos_of_ne_zero hf
        refine ⟨rfl, ?_, rfl, rfl, fun h2 => ?_, fun _ => ?_⟩
        · intro set hmem
          rcases List.mem_cons.mp hmem with rfl | hmem
          · exact filter30_ne_nil hf
          · exact h0.2.1 set hmem
        · have h3 : (false : Bool) = true := h2
          cases h3
        · refine ⟨⟨getUniqueSubjectName st.session.subject st.store, rfl, rfl,
            List.mem_cons_self _ _⟩, filter30_ne_nil hf, le_refl 0, ?_⟩
          show (0 : Int) < (((parseFlashcards text).filter
            (fun card => countTokens card.question < 30)).length : Int)
          exact_mod_cast hpos
  | addMore response =>
    rw [step]
    apply inv_applySwitchEffect
    split
    case isFalse => exact h0
    case isTrue hg =>
      obtain ⟨hgen, hcards, hload, hadd⟩ := hg
      obtain ⟨⟨act, hact, hsubjeq, hmem⟩, hcards2, hcur0, hcurlt⟩ := h0.2.2.2.2.2 hgen
      by_cases hfail : response = none ∨ ∃ text, response = some text ∧
          ((parseFlashcards text).filter (fun card => countTokens card.question < 30)).length = 0
      · obtain ⟨msg, hmsg⟩ := handleAddMore_fail response st hfail
        rw [hmsg]
        refine ⟨h0.1, h0.2.1, rfl, rfl, fun h2 => ?_, fun h2 => ?_⟩
        · have h3 : st.session.showGenerator = true := h2
          rw [hgen] at h3
          cases h3
        · exact ⟨⟨act, hact, hsubjeq, hmem⟩, hcards2, hcur0, hcurlt⟩
      · push_neg at hfail
        obtain ⟨text, rfl⟩ : ∃ text, response = some text := by
          cases response with
          | none => exact absurd rfl hfail.1
          | some t => exact ⟨t, rfl⟩
        have hf := hfail.2 text rfl
        obtain ⟨sets2, hupd, hsubjpres, hels⟩ := updateSets_spec act
          (st.session.flashcards ++
            (parseFlashcards text).filter (fun card => countTokens card.question < 30))
          st.store hmem
        rw [handleAddMore_success text st act sets2 hcards hact hf hupd]
        have hpos : 0 < ((parseFlashcards text).filter
            (fun card => countTokens card.question < 30)).length := Nat.pos_of_ne_zero hf
        refine ⟨rfl, ?_, rfl, rfl, fun h2 => ?_, fun _ => ?_⟩
        · intro set hmemX
          rcases hels set hmemX with hin | hflash
          · exact h0.2.1 set hin
          · rw [hflash]
            intro hnil
            rcases List.append_eq_nil.mp hnil with ⟨h1, h2⟩
            exact hcards h1
        · have h3 : st.session.showGenerator = true := h2
          rw [hgen] at h3
          cases h3
        · refine ⟨⟨act, hact, hsubjeq, by rw [hsubjpres]; exact hmem⟩, ?_, ?_, ?_⟩
          · intro hnil
            rcases List.append_eq_nil.mp hnil with ⟨h1, h2⟩
            exact hcards h1
          · exact Int.natCast_nonneg _
          · show (st.session.flashcards.length : Int) <
              ((st.session.flashcards ++ (parseFlashcards text).filter
                (fun card => countTokens card.question < 30)).length : Int)
            rw [List.length_append]
            push_cast
            omega
  | flip =>
    rw [step]
    apply inv_applySwitchEffect
    split
    case isFalse => exact h0
    case isTrue hg =>
      obtain ⟨hgen, hcards⟩ := hg
      refine ⟨h0.1, h0.2.1, h0.2.2.1, h0.2.2.2.1, fun h2 => ?_,
        fun _ => h0.2.2.2.2.2 hgen⟩
      have h3 : st.session.showGenerator = true := h2
      rw [hgen] at h3
      cases h3
  | circleClick idx =>
    rw [step]
    apply inv_applySwitchEffect
    split
    case isFalse => exact h0
    case isTrue hg =>
      obtain ⟨hgen, hidx⟩ := hg
      obtain ⟨⟨act, hact, hsubjeq, hmem⟩, hcards2, hcur0, hcurlt⟩ := h0.2.2.2.2.2 hgen
      unfold handleCircleClick
      split
      · refine ⟨h0.1, h0.2.1, h0.2.2.1, h0.2.2.2.1, fun h2 => ?_, fun _ => ?_⟩
        · have h3 : st.session.showGenerator = true := h2
          rw [hgen] at h3
          cases h3
        · refine ⟨⟨act, hact, hsubjeq, hmem⟩, hcards2, Int.natCast_nonneg _, ?_⟩
          show ((idx : Nat) : Int) < (st.session.flashcards.length : Int)
          exact_mod_cast hidx
      · refine ⟨h0.1, h0.2.1, h0.2.2.1, h0.2.2.2.1, fun h2 => ?_, fun _ => ?_⟩
        · have h3 : st.session.showGenerator = true := h2
          rw [hgen] at h3
          cases h3
        · refine ⟨⟨act, hact, hsubjeq, hmem⟩, hcards2, Int.natCast_nonneg _, ?_⟩
          show ((idx : Nat) : Int) < (st.session.flashcards.length : Int)
          exact_mod_cast hidx
  | backToGenerator =>
    rw [step]
    apply inv_applySwitchEffect
    split
    case isFalse => exact h0
    case isTrue hg =>
      refine ⟨h0.1, h0.2.1, h0.2.2.1, h0.2.2.2.1, fun _ => ⟨rfl, rfl, rfl, rfl⟩,
        fun h2 => ?_⟩
      have h3 : (true : Bool) = false := h2
      cases h3
  | storedSetClick k =>
    rw [step]
    apply inv_applySwitchEffect
    split
    case isFalse => exact h0
    case isTrue hg =>
      cases hget : st.session.storedSets[k]? with
      | none => exact h0
      | some set =>
        have hmem : set ∈ st.store := by
          rw [← h0.1]
          exact List.getElem?_mem hget
        have hne := h0.2.1 set hmem
        refine ⟨h0.1, h0.2.1, h0.2.2.1, h0.2.2.2.1, fun h2 => ?_, fun _ => ?_⟩
        · have h3 : (false : Bool) = true := h2
          cases h3
        · refine ⟨⟨set.subject, rfl, rfl, List.mem_map.mpr ⟨set, hmem, rfl⟩⟩, hne, le_refl 0, ?_⟩
          show (0 : Int) < (set.flashcards.length : Int)
          have : 0 < set.flashcards.length := List.length_pos.mpr hne
          exact_mod_cast this
  | deleteStoredSet k =>
    rw [step]
    apply inv_applySwitchEffect
    split
    case isFalse => exact h0
    case isTrue hg =>
      cases hget : st.session.storedSets[k]? with
      | none => exact h0
      | some set =>
        show Inv0 (handleDeleteStoredSet set.subject st)
        unfold handleDeleteStoredSet
        rw [if_neg]
        · refine ⟨rfl, ?_, h0.2.2.1, h0.2.2.2.1, fun _ => h0.2.2.2.2.1 hg,
            fun h2 => ?_⟩
          · intro s hs
            exact h0.2.1 s (List.mem_of_mem_filter hs)
          · have h3 : st.session.showGenerator = false := h2
            rw [hg] at h3
            cases h3
        · intro hc
          have h3 : st.session.showGenerator = false := hc.1
          rw [hg] at h3
          cases h3
  | prev =>
    rw [step]
    apply inv_applySwitchEffect
    split
    case isFalse => exact h0
    case isTrue hg =>
      obtain ⟨hgen, hcards⟩ := hg
      obtain ⟨⟨act, hact, hsubjeq, hmem⟩, hcards2, hcur0, hcurlt⟩ := h0.2.2.2.2.2 hgen
      unfold handlePrev
      split
      case isTrue hcur =>
        refine ⟨h0.1, h0.2.1, h0.2.2.1, h0.2.2.2.1, fun h2 => ?_, fun _ => ?_⟩
        · have h3 : st.session.showGenerator = true := h2
          rw [hgen] at h3
          cases h3
        · refine ⟨⟨act, hact, hsubjeq, hmem⟩, hcards2, ?_, ?_⟩
          · show (0 : Int) ≤ st.session.current - 1
            omega
          · show st.session.current - 1 < (st.session.flashcards.length : Int)
            omega
      case isFalse => exact h0
  | next =>
    rw [step]
    apply inv_applySwitchEffect
    split
    case isFalse => exact h0
    case isTrue hg =>
      obtain ⟨hgen, hcards⟩ := hg
      obtain ⟨⟨act, hact, hsubjeq, hmem⟩, hcards2, hcur0, hcurlt⟩ := h0.2.2.2.2.2 hgen
      unfold handleNext
      split
      case isTrue hcur =>
        refine ⟨h0.1, h0.2.1, h0.2.2.1, h0.2.2.2.1, fun h2 => ?_, fun _ => ?_⟩
        · have h3 : st.session.showGenerator = true := h2
          rw [hgen] at h3
          cases h3
        · refine ⟨⟨act, hact, hsubjeq, hmem⟩, hcards2, ?_, ?_⟩
          · show (0 : Int) ≤ st.session.current + 1
            omega
          · show st.session.current + 1 < (st.session.flashcards.length : Int)
            omega
      case isFalse => exact h0
  | typeSubject text =>
    rw [step]
    apply inv_applySwitchEffect
    split
    case isFalse => exact h0
    case isTrue hg =>
      refine ⟨h0.1, h0.2.1, h0.2.2.1, h0.2.2.2.1, fun _ => h0.2.2.2.2.1 hg.1,
        fun h2 => ?_⟩
      have h3 : st.session.showGenerator = false := h2
      rw [hg.1] at h3
      cases h3
  | switchTimerFire =>
    rw [step]
    apply inv_applySwitchEffect
    exact ⟨h0.1, h0.2.1, h0.2.2.1, h0.2.2.2.1, h0.2.2.2.2.1, h0.2.2.2.2.2⟩

theorem applySwitchEffect_id (st : AppState)
    (h : st.session.lastCurrent = st.session.current) : applySwitchEffect st = st := by
  unfold applySwitchEffect
  rw [if_neg (not_ne_iff.mpr h)]

theorem applySwitchEffect_proj (st : AppState) :
    (applySwitchEffect st).session.current = st.session.current ∧
    (applySwitchEffect st).session.showAnswer = st.session.showAnswer ∧
    (applySwitchEffect st).session.flashcards = st.session.flashcards ∧
    (applySwitchEffect st).store = st.store ∧
    (applySwitchEffect st).writes = st.writes := by
  unfold applySwitchEffect
  split
  · exact ⟨rfl, rfl, rfl, rfl, rfl⟩
  · exact ⟨rfl, rfl, rfl, rfl, rfl⟩

theorem stBrowse_inv : Inv stBrowse :=
  ⟨⟨by decide, by decide, by decide, by decide, fun h => absurd h (by decide),
    fun _ => ⟨⟨"Math".toList, by decide, by decide, by decide⟩,
      by decide, by decide, by decide⟩⟩, by decide⟩

theorem stRevealed_inv : Inv stRevealed :=
  ⟨⟨by decide, by decide, by decide, by decide, fun h => absurd h (by decide),
    fun _ => ⟨⟨"Math".toList, by decide, by decide, by decide⟩,
      by decide, by decide, by decide⟩⟩, by decide⟩

theorem stEntry_inv : Inv stEntry :=
  ⟨⟨by decide, by decide, by decide, by decide,
    fun _ => ⟨by decide, by decide, by decide, by decide⟩,
    fun h => absurd h (by decide)⟩, by decide⟩

/-! ### The claims -/

/-- C1, counterexample: starting from the empty store, the second add of
`"Math"` stores `"Math(0)"`, not `"Math(1)"` as claimed, and the third
stores `"Math(1)"`, not `"Math(2)"` (`maxIndex` starts at `-1`, so an
exact match with no suffixed variants yields suffix `0`). -/
theorem C1_counterexample :
    ((runAdds [("Math".toList, [cardQ1]), ("Math".toList, [cardQ1]),
        ("Math".toList, [cardQ1])]).map StoredSet.subject =
      ["Math(1)".toList, "Math(0)".toList, "Math".toList]) ∧
    (addStoredSet "Math".toList [cardQ1]
        (runAdds [("Math".toList, [cardQ1])])).1 ≠ "Math(1)".toList ∧
    (addStoredSet "Math".toList [cardQ1]
        (runAdds [("Math".toList, [cardQ1]), ("Math".toList, [cardQ1])])).1 ≠
      "Math(2)".toList := by decide

/-- C1, amended: the subjects produced by any sequence of `add` calls
from the empty store are pairwise distinct; adding `"Math"` three times
stores `"Math"`, then `"Math(0)"`, then `"Math(1)"` (the new name is
`base(m+1)` where `m` is the maximum numeric suffix among matches, taken
as `-1` when only the unsuffixed base matches). -/
theorem C1_amended :
    (∀ ops : List (Str × List Flashcard), ((runAdds ops).map StoredSet.subject).Nodup) ∧
    ((runAdds [("Math".toList, [cardQ1]), ("Math".toList, [cardQ1]),
        ("Math".toList, [cardQ1])]).map StoredSet.subject =
      ["Math(1)".toList, "Math(0)".toList, "Math".toList]) :=
  ⟨fun ops => runAdds_nodup_aux ops [] (by simp), by decide⟩

/-- C2, counterexample: from a browsing state over 2 cards at position 0,
`goTo 5` is not rejected: it changes the state and sets `currentIndex` to
5, outside `[0, 1]` (the source `handleCircleClick` has no bounds check). -/
theorem C2_counterexample :
    stBrowse.session.flashcards.length = 2 ∧
    (handleCircleClick 5 stBrowse).session.current = 5 ∧
    ¬((handleCircleClick 5 stBrowse).session.current <
        (stBrowse.session.flashcards.length : Int)) ∧
    handleCircleClick 5 stBrowse ≠ stBrowse := by decide

/-- C2, amended: `goTo` itself sets `currentIndex` to its argument
unconditionally (no bounds check); however every UI-deliverable event
passes an in-range index, so from any state satisfying the invariant the
navigation system keeps `currentIndex` in `[0, N-1]` when the card list
is non-empty (and at `0` when it is empty), and the invariant is
preserved by every event. -/
theorem C2_amended :
    (∀ (st : AppState) (idx : Int), (handleCircleClick idx st).session.current = idx) ∧
    (∀ st : AppState, Inv st →
      (st.session.flashcards = [] → st.session.current = 0) ∧
      (st.session.flashcards ≠ [] → 0 ≤ st.session.current ∧
        st.session.current < (st.session.flashcards.length : Int))) ∧
    (∀ (st : AppState) (ev : Ev), Inv st → Inv (step ev st)) := by
  refine ⟨fun st idx => rfl, fun st h => ?_, fun st ev h => inv_step ev st h⟩
  obtain ⟨h0, hlc⟩ := h
  cases hsg : st.session.showGenerator with
  | true =>
    obtain ⟨hact, hcards, hcur, hans⟩ := h0.2.2.2.2.1 hsg
    exact ⟨fun _ => hcur, fun hne => absurd hcards hne⟩
  | false =>
    obtain ⟨hex, hcards, hcur0, hcurlt⟩ := h0.2.2.2.2.2 hsg
    exact ⟨fun hnil => absurd hnil hcards, fun _ => ⟨hcur0, hcurlt⟩⟩

/-- C2, witness: the invariant holds of the concrete browsing state, its
position is in range, and one step preserves the invariant. -/
theorem C2_witness :
    Inv stBrowse ∧
    (0 ≤ stBrowse.session.current ∧
      stBrowse.session.current < (stBrowse.session.flashcards.length : Int)) ∧
    Inv (step (Ev.circleClick 1) stBrowse) :=
  ⟨stBrowse_inv,
   (C2_amended.2.1 stBrowse stBrowse_inv).2 (by decide),
   C2_amended.2.2 stBrowse (Ev.circleClick 1) stBrowse_inv⟩

/-- C3: parsing the exact text `"Q: A? A: B Q: C? A: D"` yields exactly
the two cards `(A?, B)` and `(C?, D)`; and in general every parsed card
arises from a non-empty question span and a non-empty answer span, both
trimmed of surrounding whitespace. -/
theorem C3_parse :
    parseFlashcards ("Q: A? A: B Q: C? A: D".toList) =
      [⟨"A?".toList, "B".toList⟩, ⟨"C?".toList, "D".toList⟩] ∧
    (∀ (text : Str) (c : Flashcard), c ∈ parseFlashcards text →
      ∃ q a, q ≠ [] ∧ a ≠ [] ∧ c.question = jsTrim q ∧ c.answer = jsTrim a) :=
  ⟨by decide, fun text c hc => parseLoop_spans _ text 0 c hc⟩

/-- C3, witness: the general span property applied to the first card of
the example parse. -/
theorem C3_witness :
    ∃ q a, q ≠ [] ∧ a ≠ [] ∧
      (⟨"A?".toList, "B".toList⟩ : Flashcard).question = jsTrim q ∧
      (⟨"A?".toList, "B".toList⟩ : Flashcard).answer = jsTrim a :=
  C3_parse.2 ("Q: A? A: B Q: C? A: D".toList) ⟨"A?".toList, "B".toList⟩ (by decide)

/-- C4: the generation filter drops exactly the parsed cards whose
question has 30 or more whitespace-delimited tokens and keeps those with
29 or fewer; when the filter empties a non-empty parse, the call fails
with the dedicated filter message, which differs from the zero-parse
message. -/
theorem C4_filter :
    (∀ (cards : List Flashcard) (card : Flashcard), card ∈ cards →
      30 ≤ countTokens card.question →
      card ∉ cards.filter (fun card => countTokens card.question < 30)) ∧
    (∀ (cards : List Flashcard) (card : Flashcard), card ∈ cards →
      countTokens card.question ≤ 29 →
      card ∈ cards.filter (fun card => countTokens card.question < 30)) ∧
    (∀ (subject : Str) (prevQuestions : List Str) (text : Str) (st : AppState),
      (parseFlashcards text).length ≠ 0 →
      ((parseFlashcards text).filter (fun card => countTokens card.question < 30)).length = 0 →
      (generateFlashcards subject prevQuestions (some text) st).session.error =
        some filterFailMsg) ∧
    filterFailMsg ≠ parseFailMsg := by
  refine ⟨?_, ?_, ?_, by decide⟩
  · intro cards card hmem htok hfil
    have := (List.mem_filter.mp hfil).2
    simp at this
    omega
  · intro cards card hmem htok
    exact List.mem_filter.mpr ⟨hmem, by simp; omega⟩
  · intro subject prevQuestions text st hp hf
    simp [generateFlashcards, finallyBlock, hp, hf]

/-- C4, witness: a 30-token question is dropped, a 29-token question is
kept, and a response parsing to only 30-token questions fails with the
filter message. -/
theorem C4_witness :
    countTokens q30 = 30 ∧ countTokens q29 = 29 ∧
    ((⟨q30, "x".toList⟩ : Flashcard) ∉
      [(⟨q30, "x".toList⟩ : Flashcard)].filter
        (fun card => countTokens card.question < 30)) ∧
    ((⟨q29, "x".toList⟩ : Flashcard) ∈
      [(⟨q29, "x".toList⟩ : Flashcard)].filter
        (fun card => countTokens card.question < 30)) ∧
    (generateFlashcards "Math".toList [] (some text30) stEntry).session.error =
      some filterFailMsg :=
  ⟨by decide, by decide,
   C4_filter.1 [⟨q30, "x".toList⟩] ⟨q30, "x".toList⟩ (by decide) (by decide),
   C4_filter.2.1 [⟨q29, "x".toList⟩] ⟨q29, "x".toList⟩ (by decide) (by decide),
   C4_filter.2.2.1 "Math".toList [] text30 stEntry (by decide) (by decide)⟩

/-- C5: a generation event whose response fails the parse stage or the
filter stage leaves the card sequence, the store, and every other session
field except the error message exactly as before the call, both for the
initial-generation event and for the continuation event. -/
theorem C5_failure_frame :
    ∀ (st : AppState) (text : Str), Inv st →
    ((parseFlashcards text).filter (fun card => countTokens card.question < 30)).length = 0 →
    sameExceptError st (step (Ev.submit (some text)) st) ∧
    sameExceptError st (step (Ev.addMore (some text)) st) := by
  intro st text h hf
  obtain ⟨h0, hlc⟩ := h
  constructor
  · rw [step]
    split
    case isFalse =>
      rw [applySwitchEffect_id _ hlc]
      exact ⟨rfl, rfl, rfl, rfl, rfl, rfl, rfl, rfl, rfl, rfl, rfl⟩
    case isTrue hg =>
      obtain ⟨hgen, hload, hsubj⟩ := hg
      obtain ⟨hact, hcards, hcur, hans⟩ := h0.2.2.2.2.1 hgen
      obtain ⟨msg, hmsg⟩ := handleSubmit_fail (some text) st (Or.inr ⟨text, rfl, hf⟩)
      rw [hmsg, applySwitchEffect_id]
      · exact ⟨rfl, rfl, hcards.symm, hcur.symm, hans.symm, hact.symm, rfl, rfl, rfl,
          hload.symm, h0.2.2.2.1.symm⟩
      · show st.session.lastCurrent = (0 : Int)
        rw [hlc, hcur]
  · rw [step]
    split
    case isFalse =>
      rw [applySwitchEffect_id _ hlc]
      exact ⟨rfl, rfl, rfl, rfl, rfl, rfl, rfl, rfl, rfl, rfl, rfl⟩
    case isTrue hg =>
      obtain ⟨hgen, hcards, hload, hadd⟩ := hg
      obtain ⟨msg, hmsg⟩ := handleAddMore_fail (some text) st (Or.inr ⟨text, rfl, hf⟩)
      rw [hmsg, applySwitchEffect_id]
      · exact ⟨rfl, rfl, rfl, rfl, rfl, rfl, rfl, rfl, rfl, hload.symm, hadd.symm⟩
      · exact hlc

/-- C5, witness: a response with no parsable card leaves the browsing
state untouched apart from the error field, for both events. -/
theorem C5_witness :
    Inv stBrowse ∧
    ((parseFlashcards ("nonsense".toList)).filter
      (fun card => countTokens card.question < 30)).length = 0 ∧
    sameExceptError stBrowse (step (Ev.submit (some ("nonsense".toList))) stBrowse) ∧
    sameExceptError stBrowse (step (Ev.addMore (some ("nonsense".toList))) stBrowse) :=
  ⟨stBrowse_inv, by decide,
   (C5_failure_frame stBrowse ("nonsense".toList) stBrowse_inv (by decide)).1,
   (C5_failure_frame stBrowse ("nonsense".toList) stBrowse_inv (by decide)).2⟩

/-- C6: a successful generation event writes the store exactly once
(`writes` grows by one), both for the initial generation and for the
continuation, and a generation event whose response fails (transport,
parse, or filter stage) does not write the store at all. -/
theorem C6_store_writes :
    ∀ (st : AppState) (text : Str), Inv st →
    (((parseFlashcards text).filter (fun card => countTokens card.question < 30)).length ≠ 0 →
      (st.session.showGenerator = true ∧ st.session.subject ≠ [] →
        (step (Ev.submit (some text)) st).writes = st.writes + 1) ∧
      (st.session.showGenerator = false ∧ st.session.flashcards ≠ [] →
        (step (Ev.addMore (some text)) st).writes = st.writes + 1)) ∧
    (∀ response : Option Str,
      (response = none ∨ ∃ t, response = some t ∧
        ((parseFlashcards t).filter (fun card => countTokens card.question < 30)).length = 0) →
      (step (Ev.submit response) st).writes = st.writes ∧
      (step (Ev.addMore response) st).writes = st.writes) := by
  intro st text h
  obtain ⟨h0, hlc⟩ := h
  constructor
  · intro hf
    constructor
    · intro ⟨hgen, hsubj⟩
      rw [step, if_pos ⟨hgen, h0.2.2.1, hsubj⟩, handleSubmit_success text st hf]
      rw [(applySwitchEffect_proj _).2.2.2.2]
    · intro ⟨hgen, hcards⟩
      obtain ⟨⟨act, hact, hsubjeq, hmem⟩, hcards2, hcur0, hcurlt⟩ := h0.2.2.2.2.2 hgen
      obtain ⟨sets2, hupd, hsubjpres, hels⟩ := updateSets_spec act
        (st.session.flashcards ++
          (parseFlashcards text).filter (fun card => countTokens card.question < 30))
        st.store hmem
      rw [step, if_pos ⟨hgen, hcards, h0.2.2.1, h0.2.2.2.1⟩,
        handleAddMore_success text st act sets2 hcards hact hf hupd]
      rw [(applySwitchEffect_proj _).2.2.2.2]
  · intro response hfail
    constructor
    · rw [step]
      split
      case isFalse => rw [(applySwitchEffect_proj _).2.2.2.2]
      case isTrue hg =>
        obtain ⟨msg, hmsg⟩ := handleSubmit_fail response st hfail
        rw [hmsg, (applySwitchEffect_proj _).2.2.2.2]
    · rw [step]
      split
      case isFalse => rw [(applySwitchEffect_proj _).2.2.2.2]
      case isTrue hg =>
        obtain ⟨msg, hmsg⟩ := handleAddMore_fail response st hfail
        rw [hmsg, (applySwitchEffect_proj _).2.2.2.2]

/-- C6, witness: a successful initial generation from the entry state
performs exactly one store write, and a failed one performs none. -/
theorem C6_witness :
    Inv stEntry ∧
    (((parseFlashcards ("Q: A? A: B".toList)).filter
      (fun card => countTokens card.question < 30)).length ≠ 0) ∧
    (step (Ev.submit (some ("Q: A? A: B".toList))) stEntry).writes = stEntry.writes + 1 ∧
    (step (Ev.submit (some ("nonsense".toList))) stEntry).writes = stEntry.writes ∧
    (step (Ev.addMore (some ("Q: A? A: B".toList))) stBrowse).writes = stBrowse.writes + 1 :=
  ⟨stEntry_inv, by decide,
   ((C6_store_writes stEntry ("Q: A? A: B".toList) stEntry_inv).1 (by decide)).1
     ⟨by decide, by decide⟩,
   ((C6_store_writes stEntry ("nonsense".toList) stEntry_inv).2 (some ("nonsense".toList))
     (Or.inr ⟨"nonsense".toList, rfl, by decide⟩)).1,
   ((C6_store_writes stBrowse ("Q: A? A: B".toList) stBrowse_inv).1 (by decide)).2
     ⟨by decide, by decide⟩⟩

theorem handleSubmit_showAnswer (response : Option Str) (st : AppState) :
    (handleSubmit response st).session.showAnswer = false := by
  unfold handleSubmit generateFlashcards
  cases response with
  | none => rfl
  | some text =>
    simp only []
    split
    · rfl
    · split
      · rfl
      · split
        · rfl
        · next h => simp at h

theorem handleAddMore_cases (response : Option Str) (st : AppState) :
    (handleAddMore response st).session.current = st.session.current ∨
    (handleAddMore response st).session.showAnswer = false := by
  unfold handleAddMore generateFlashcards
  cases response with
  | none => exact Or.inl rfl
  | some text =>
    simp only []
    split
    · exact Or.inl rfl
    · split
      · exact Or.inl rfl
      · split
        · exact Or.inr rfl
        · exact Or.inr rfl

/-- C7, counterexample: with the answer revealed, `goTo` at the current
index is not a silent no-op: it resets `revealed` to false
(`handleCircleClick` calls `setShowAnswer(false)` unconditionally). -/
theorem C7_counterexample :
    stRevealed.session.showAnswer = true ∧
    (handleCircleClick stRevealed.session.current stRevealed).session.current =
      stRevealed.session.current ∧
    (handleCircleClick stRevealed.session.current stRevealed).session.showAnswer = false := by
  decide

/-- C7, amended: `goTo` at the current index leaves `currentIndex`, the
animation key and the `switching` flag unchanged (the render effect does
not fire), but it still resets `revealed` to false. -/
theorem C7_amended :
    ∀ (st : AppState) (idx : Int), idx = st.session.current →
      (handleCircleClick idx st).session.current = st.session.current ∧
      (handleCircleClick idx st).session.switchAnimKey = st.session.switchAnimKey ∧
      (handleCircleClick idx st).session.switching = st.session.switching ∧
      (handleCircleClick idx st).session.showAnswer = false ∧
      (st.session.lastCurrent = st.session.current →
        applySwitchEffect (handleCircleClick idx st) = handleCircleClick idx st) := by
  intro st idx hidx
  unfold handleCircleClick
  rw [if_neg (not_ne_iff.mpr hidx)]
  exact ⟨hidx, rfl, rfl, rfl, fun hlc => applySwitchEffect_id _ (hlc.trans hidx.symm)⟩

/-- C7, witness: the amended statement at the concrete revealed state. -/
theorem C7_witness :
    (1 : Int) = stRevealed.session.current ∧
    ((handleCircleClick 1 stRevealed).session.current = stRevealed.session.current ∧
     (handleCircleClick 1 stRevealed).session.switchAnimKey =
       stRevealed.session.switchAnimKey ∧
     (handleCircleClick 1 stRevealed).session.switching = stRevealed.session.switching ∧
     (handleCircleClick 1 stRevealed).session.showAnswer = false ∧
     (stRevealed.session.lastCurrent = stRevealed.session.current →
       applySwitchEffect (handleCircleClick 1 stRevealed) =
         handleCircleClick 1 stRevealed)) :=
  ⟨by decide, C7_amended stRevealed 1 (by decide)⟩

/-- C8: `prev` at position 0 and `next` at position `N-1` leave the state
entirely unchanged (no wrap, no error); away from the bounds they act
exactly as `goTo(current-1)` / `goTo(current+1)`. -/
theorem C8_bounds :
    ∀ st : AppState,
      (st.session.current = 0 → handlePrev st = st) ∧
      (st.session.current = (st.session.flashcards.length : Int) - 1 →
        handleNext st = st) ∧
      (0 < st.session.current →
        handlePrev st = handleCircleClick (st.session.current - 1) st) ∧
      (st.session.current < (st.session.flashcards.length : Int) - 1 →
        handleNext st = handleCircleClick (st.session.current + 1) st) := by
  intro st
  refine ⟨?_, ?_, ?_, ?_⟩
  · intro h
    unfold handlePrev
    rw [if_neg (by omega)]
  · intro h
    unfold handleNext
    rw [if_neg (by omega)]
  · intro h
    unfold handlePrev handleCircleClick
    rw [if_pos (by omega : st.session.current > 0),
      if_pos (by omega : st.session.current - 1 ≠ st.session.current)]
  · intro h
    unfold handleNext handleCircleClick
    rw [if_pos h, if_pos (by omega : st.session.current + 1 ≠ st.session.current)]

/-- C8, witness: the four cases at the concrete states. -/
theorem C8_witness :
    (stBrowse.session.current = 0 ∧ handlePrev stBrowse = stBrowse) ∧
    (stRevealed.session.current = (stRevealed.session.flashcards.length : Int) - 1 ∧
      handleNext stRevealed = stRevealed) ∧
    (handlePrev stRevealed =
      handleCircleClick (stRevealed.session.current - 1) stRevealed) ∧
    (handleNext stBrowse = handleCircleClick (stBrowse.session.current + 1) stBrowse) :=
  ⟨⟨by decide, (C8_bounds stBrowse).1 (by decide)⟩,
   ⟨by decide, (C8_bounds stRevealed).2.1 (by decide)⟩,
   (C8_bounds stRevealed).2.2.1 (by decide),
   (C8_bounds stBrowse).2.2.2 (by decide)⟩

theorem handlePrev_cases (st : AppState) :
    handlePrev st = st ∨ (handlePrev st).session.showAnswer = false := by
  unfold handlePrev
  split
  · exact Or.inr rfl
  · exact Or.inl rfl

theorem handleNext_cases (st : AppState) :
    handleNext st = st ∨ (handleNext st).session.showAnswer = false := by
  unfold handleNext
  split
  · exact Or.inr rfl
  · exact Or.inl rfl

theorem handleDeleteStoredSet_cases (subj : Str) (st : AppState) :
    (handleDeleteStoredSet subj st).session.current = st.session.current ∨
    (handleDeleteStoredSet subj st).session.showAnswer = false := by
  by_cases hc : st.session.showGenerator = false ∧
      (st.session.activeSubject = some subj ∨ st.session.subject = subj)
  · right
    simp [handleDeleteStoredSet, saveStoredSets, getStoredSets, handleBackToGenerator, hc]
  · left
    simp [handleDeleteStoredSet, saveStoredSets, getStoredSets, hc]

/-- C9: under any event of the system, whenever `currentIndex` changes,
`revealed` ends up false; in particular an in-range `prev`, `next`, or
`goTo` to a different index resets a revealed answer. -/
theorem C9_reveal_reset :
    (∀ (ev : Ev) (st : AppState), (step ev st).session.current ≠ st.session.current →
      (step ev st).session.showAnswer = false) ∧
    (∀ st : AppState, 0 < st.session.current →
      (handlePrev st).session.showAnswer = false) ∧
    (∀ st : AppState, st.session.current < (st.session.flashcards.length : Int) - 1 →
      (handleNext st).session.showAnswer = false) ∧
    (∀ (st : AppState) (idx : Int), idx ≠ st.session.current →
      (handleCircleClick idx st).session.showAnswer = false) := by
  refine ⟨?_, ?_, ?_, ?_⟩
  · intro ev st hne
    cases ev with
    | submit response =>
      by_cases hg : st.session.showGenerator = true ∧ st.session.loading = false ∧
          st.session.subject ≠ []
      · rw [step, if_pos hg] at hne ⊢
        rw [(applySwitchEffect_proj _).2.1]
        exact handleSubmit_showAnswer response st
      · rw [step, if_neg hg] at hne
        exact absurd (applySwitchEffect_proj st).1 hne
    | addMore response =>
      by_cases hg : st.session.showGenerator = false ∧ st.session.flashcards ≠ [] ∧
          st.session.loading = false ∧ st.session.addingMore = false
      · rw [step, if_pos hg] at hne ⊢
        rw [(applySwitchEffect_proj _).1] at hne
        rw [(applySwitchEffect_proj _).2.1]
        rcases handleAddMore_cases response st with h | h
        · exact absurd h hne
        · exact h
      · rw [step, if_neg hg] at hne
        exact absurd (applySwitchEffect_proj st).1 hne
    | flip =>
      by_cases hg : st.session.showGenerator = false ∧ st.session.flashcards ≠ []
      · rw [step, if_pos hg] at hne
        rw [(applySwitchEffect_proj _).1] at hne
        exact absurd rfl hne
      · rw [step, if_neg hg] at hne
        exact absurd (applySwitchEffect_proj st).1 hne
    | circleClick idx =>
      by_cases hg : st.session.showGenerator = false ∧ idx < st.session.flashcards.length
      · rw [step, if_pos hg]
        rw [(applySwitchEffect_proj _).2.1]
        rfl
      · rw [step, if_neg hg] at hne
        exact absurd (applySwitchEffect_proj st).1 hne
    | backToGenerator =>
      by_cases hg : st.session.showGenerator = false ∧ st.session.flashcards ≠ []
      · rw [step, if_pos hg]
        rw [(applySwitchEffect_proj _).2.1]
        rfl
      · rw [step, if_neg hg] at hne
        exact absurd (applySwitchEffect_proj st).1 hne
    | storedSetClick k =>
      by_cases hg : st.session.showGenerator = true
      · rw [step, if_pos hg] at hne ⊢
        cases hget : st.session.storedSets[k]? with
        | none =>
          rw [hget] at hne
          exact absurd (applySwitchEffect_proj st).1 hne
        | some set =>
          rw [(applySwitchEffect_proj _).2.1]
          rfl
      · rw [step, if_neg hg] at hne
        exact absurd (applySwitchEffect_proj st).1 hne
    | deleteStoredSet k =>
      by_cases hg : st.session.showGenerator = true
      · rw [step, if_pos hg] at hne ⊢
        cases hget : st.session.storedSets[k]? with
        | none =>
          rw [hget] at hne
          exact absurd (applySwitchEffect_proj st).1 hne
        | some set =>
          rw [hget] at hne
          rw [(applySwitchEffect_proj _).1] at hne
          rw [(applySwitchEffect_proj _).2.1]
          rcases handleDeleteStoredSet_cases set.subject st with he | hsa
          · exact absurd he hne
          · exact hsa
      · rw [step, if_neg hg] at hne
        exact absurd (applySwitchEffect_proj st).1 hne
    | prev =>
      by_cases hg : st.session.showGenerator = false ∧ st.session.flashcards ≠ []
      · rw [step, if_pos hg] at hne ⊢
        rw [(applySwitchEffect_proj _).1] at hne
        rw [(applySwitchEffect_proj _).2.1]
        rcases handlePrev_cases st with he | hsa
        · rw [he] at hne
          exact absurd rfl hne
        · exact hsa
      · rw [step, if_neg hg] at hne
        exact absurd (applySwitchEffect_proj st).1 hne
    | next =>
      by_cases hg : st.session.showGenerator = false ∧ st.session.flashcards ≠ []
      · rw [step, if_pos hg] at hne ⊢
        rw [(applySwitchEffect_proj _).1] at hne
        rw [(applySwitchEffect_proj _).2.1]
        rcases handleNext_cases st with he | hsa
        · rw [he] at hne
          exact absurd rfl hne
        · exact hsa
      · rw [step, if_neg hg] at hne
        exact absurd (applySwitchEffect_proj st).1 hne
    | typeSubject text =>
      by_cases hg : st.session.showGenerator = true ∧ st.session.loading = false
      · rw [step, if_pos hg] at hne
        exact absurd (applySwitchEffect_proj _).1 hne
      · rw [step, if_neg hg] at hne
        exact absurd (applySwitchEffect_proj st).1 hne
    | switchTimerFire =>
      rw [step] at hne
      exact absurd (applySwitchEffect_proj _).1 hne
  · intro st h
    unfold handlePrev
    rw [if_pos (by omega : st.session.current > 0)]
  · intro st h
    unfold handleNext
    rw [if_pos h]
  · intro st idx h
    exact rfl

/-- C9, witness: at the concrete revealed state, a `goTo` step to a
different index changes the position and leaves the answer hidden, and
the three handler forms reset it. -/
theorem C9_witness :
    ((step (Ev.circleClick 0) stRevealed).session.current ≠
      stRevealed.session.current) ∧
    (step (Ev.circleClick 0) stRevealed).session.showAnswer = false ∧
    (handlePrev stRevealed).session.showAnswer = false ∧
    (handleNext stBrowse).session.showAnswer = false ∧
    (handleCircleClick 0 stRevealed).session.showAnswer = false :=
  ⟨by decide,
   C9_reveal_reset.1 (Ev.circleClick 0) stRevealed (by decide),
   C9_reveal_reset.2.1 stRevealed (by decide),
   C9_reveal_reset.2.2.1 stBrowse (by decide),
   C9_reveal_reset.2.2.2 stRevealed 0 (by decide)⟩

theorem handleDeleteStoredSet_active (st : AppState) (act : Str)
    (hgen : st.session.showGenerator = false)
    (hact : st.session.activeSubject = some act) :
    handleDeleteStoredSet act st =
      { st with
        store := st.store.filter (fun s => s.subject ≠ act),
        writes := st.writes + 1,
        session := { st.session with
          storedSets := st.store.filter (fun s => s.subject ≠ act),
          showGenerator := true, flashcards := [], current := 0, showAnswer := false,
          error := none, subject := [], activeSubject := none,
          switchAnimKey := st.session.switchAnimKey + 1 } } := by
  simp [handleDeleteStoredSet, handleBackToGenerator, saveStoredSets, getStoredSets,
    hgen, hact]

theorem handleDeleteStoredSet_other (st : AppState) (other : Str)
    (hact : st.session.activeSubject ≠ some other)
    (hsubj : st.session.subject ≠ other) :
    handleDeleteStoredSet other st =
      { st with
        store := st.store.filter (fun s => s.subject ≠ other),
        writes := st.writes + 1,
        session := { st.session with
          storedSets := st.store.filter (fun s => s.subject ≠ other) } } := by
  simp [handleDeleteStoredSet, saveStoredSets, getStoredSets, hact, hsubj]

/-- C10: while a set is being browsed, deleting the active subject exits
to the entry view and resets the session (empty card list, position 0,
hidden answer, no error, no active subject); deleting any other subject
leaves every in-session browsing field unchanged. -/
theorem C10_delete :
    ∀ (st : AppState) (act other : Str), Inv st →
      st.session.showGenerator = false →
      st.session.activeSubject = some act →
      ((handleDeleteStoredSet act st).session.flashcards = [] ∧
       (handleDeleteStoredSet act st).session.current = 0 ∧
       (handleDeleteStoredSet act st).session.showAnswer = false ∧
       (handleDeleteStoredSet act st).session.error = none ∧
       (handleDeleteStoredSet act st).session.activeSubject = none ∧
       (handleDeleteStoredSet act st).session.showGenerator = true) ∧
      (other ≠ act →
       (handleDeleteStoredSet other st).session.flashcards = st.session.flashcards ∧
       (handleDeleteStoredSet other st).session.current = st.session.current ∧
       (handleDeleteStoredSet other st).session.showAnswer = st.session.showAnswer ∧
       (handleDeleteStoredSet other st).session.error = st.session.error ∧
       (handleDeleteStoredSet other st).session.activeSubject =
         st.session.activeSubject ∧
       (handleDeleteStoredSet other st).session.showGenerator =
         st.session.showGenerator) := by
  intro st act other h hgen hact
  obtain ⟨h0, hlc⟩ := h
  obtain ⟨⟨act2, hact2, hsubjeq, hmem⟩, hcards2, hcur0, hcurlt⟩ := h0.2.2.2.2.2 hgen
  have hacteq : act2 = act := Option.some.inj (hact2.symm.trans hact)
  rw [hacteq] at hsubjeq
  constructor
  · rw [handleDeleteStoredSet_active st act hgen hact]
    exact ⟨rfl, rfl, rfl, rfl, rfl, rfl⟩
  · intro hother
    rw [handleDeleteStoredSet_other st other
      (by rw [hact]; intro hcon; exact hother ((Option.some.injEq _ _).mp hcon).symm)
      (by rw [hsubjeq]; exact fun hcon => hother hcon.symm)]
    exact ⟨rfl, rfl, rfl, rfl, rfl, rfl⟩

/-- C10, witness: deleting `Math` while browsing it resets the session;
deleting `Other` leaves the browsing state unchanged. -/
theorem C10_witness :
    Inv stBrowse ∧
    (((handleDeleteStoredSet "Math".toList stBrowse).session.flashcards = [] ∧
      (handleDeleteStoredSet "Math".toList stBrowse).session.current = 0 ∧
      (handleDeleteStoredSet "Math".toList stBrowse).session.showAnswer = false ∧
      (handleDeleteStoredSet "Math".toList stBrowse).session.error = none ∧
      (handleDeleteStoredSet "Math".toList stBrowse).session.activeSubject = none ∧
      (handleDeleteStoredSet "Math".toList stBrowse).session.showGenerator = true) ∧
     ("Other".toList ≠ "Math".toList →
      (handleDeleteStoredSet "Other".toList stBrowse).session.flashcards =
        stBrowse.session.flashcards ∧
      (handleDeleteStoredSet "Other".toList stBrowse).session.current =
        stBrowse.session.current ∧
      (handleDeleteStoredSet "Other".toList stBrowse).session.showAnswer =
        stBrowse.session.showAnswer ∧
      (handleDeleteStoredSet "Other".toList stBrowse).session.error =
        stBrowse.session.error ∧
      (handleDeleteStoredSet "Other".toList stBrowse).session.activeSubject =
        stBrowse.session.activeSubject ∧
      (handleDeleteStoredSet "Other".toList stBrowse).session.showGenerator =
        stBrowse.session.showGenerator)) :=
  ⟨stBrowse_inv,
   C10_delete stBrowse "Math".toList "Other".toList stBrowse_inv (by decide) (by decide)⟩

end Flashcards
